/-
Verification of the CSV → YAML metadata/GDPR converter (src/converter.py).

Shallow embedding notes:
* A pandas `DataFrame` row becomes a `Row` record; missing (NaN) cells of the
  optional columns `DATA_FORMAT` and `NULLABLE` become `none`.
* `df.groupby(ks)` is modelled as: the list of distinct key tuples in
  ascending (lexicographic) order — pandas sorts group keys — where each
  group's rows are the input rows with that key, in input order.
* Python dicts with statically known keys become structures; the column
  dictionaries built with `**`-spreads (whose key set varies per row) become
  association lists `List (String × CVal)`, so key presence is observable.
* YAML serialization is not modelled textually: the claims are about the
  document structure that is serialized.
-/
import Mathlib

namespace Converter

/-- One input CSV record (one row of the DataFrame read by `read_csv`).
`DATA_FORMAT` and `NULLABLE` are `Option` because the code tests them with
`pd.notna` / equality against a possibly missing cell. -/
structure Row where
  table_name : String
  COLUMN_NAME : String
  DATA_TYPE : String
  DATA_FORMAT : Option String
  NULLABLE : Option String
  FILE_NAME : String
  DECIMAL_SEPARATOR : String
  FILE_TYPE : String
  GDPR_FLAG : Bool
deriving DecidableEq, Repr

/-- Python's `str.lower()` (ASCII range, as in the inputs at hand): lowercase
each character. Defined on the character list so that it evaluates by
kernel reduction. -/
def strLower (s : String) : String :=
  String.mk (s.data.map Char.toLower)

/-- `startsWithL n h` : the char list `n` is an initial segment of `h`. -/
def startsWithL : List Char → List Char → Bool
  | [], _ => true
  | _ :: _, [] => false
  | a :: n, b :: h => a == b && startsWithL n h

/-- `containsL n h` : `n` occurs as a contiguous run inside `h`
(Python's `n in h` on strings). -/
def containsL (needle : List Char) : List Char → Bool
  | [] => needle.isEmpty
  | c :: h => startsWithL needle (c :: h) || containsL needle h

/-- Python substring test `needle in hay`. -/
def strContains (hay needle : String) : Bool :=
  containsL needle.data hay.data

/-- The `type_mapping` dict of `map_data_type`, in insertion order. -/
def type_mapping : List (String × String) :=
  [("VARCHAR2", "string"), ("NUMBER", "decimal(38,0)"), ("DATE", "date")]

/-- `next((standard for key, standard in m if key in data_type), default)`:
first value whose key is a substring of `data_type`. -/
def firstMatch (data_type : String) : List (String × String) → Option String
  | [] => none
  | (key, standard) :: rest =>
    if strContains data_type key then some standard else firstMatch data_type rest

/-- `map_data_type` from src/converter.py lines 17–32. -/
def map_data_type (data_type : String) : String :=
  (firstMatch data_type type_mapping).getD "string"

/-- Value of one entry of a column dictionary (strings or the boolean
`is_nullable`). -/
inductive CVal where
  | str (v : String)
  | bool (v : Bool)
deriving DecidableEq, Repr

/-- One column dictionary built by the lambda inside `process_table`
(lines 47–52): base keys `name` and `data_type`, then the two conditional
`**`-spreads. -/
def mk_column (row : Row) : List (String × CVal) :=
  [("name", CVal.str (strLower row.COLUMN_NAME)),
   ("data_type", CVal.str (map_data_type row.DATA_TYPE))]
  ++ (match row.DATA_FORMAT with
      | some v => [("date_format", CVal.str v)]
      | none => [])
  ++ (if row.NULLABLE = some "Y" then [("is_nullable", CVal.bool true)] else [])

/-- The `params` sub-dictionary of a source descriptor. -/
structure Params where
  decimal_separator : String
  format : String
deriving DecidableEq, Repr

/-- A source descriptor (`source_data`, lines 88–96). -/
structure Source where
  load_type : String
  file_pattern : String
  partition_pattern : String
  params : Params
deriving DecidableEq, Repr

/-- One table dictionary (lines 54–61). -/
structure Table where
  name : String
  source : Source
  columns : List (List (String × CVal))
  primary_key : List String
  cdc_column : String
  cdc_type : String
deriving DecidableEq, Repr

/-- `process_table` (lines 34–63): `df.iloc[0]['table_name']` is the head of
the group (groupby groups are nonempty; on an empty group Python would raise,
we default to `""`), and columns are the per-row dictionaries in row order. -/
def process_table (group : List Row) (source : Source) : Table :=
  { name := match group with | [] => "" | r :: _ => r.table_name
    source := source
    columns := group.map mk_column
    primary_key := ["unid"]
    cdc_column := "dml_flag"
    cdc_type := "soft" }

/-- The 4-tuple grouping key of line 79:
`(FILE_NAME, DECIMAL_SEPARATOR, FILE_TYPE, table_name)`. -/
def groupKey (r : Row) : String × String × String × String :=
  (r.FILE_NAME, r.DECIMAL_SEPARATOR, r.FILE_TYPE, r.table_name)

/-- Grouping keys. -/
abbrev Key := String × String × String × String

/-- A key tuple reordered into nested lexicographic products over character
lists, so that the Python tuple order (componentwise code-point
lexicographic) is the `≤` of the `Prod.Lex` linear order. Character lists
rather than `String` so that comparisons evaluate by kernel reduction. -/
def toLexKey (k : Key) : List Char ×ₗ (List Char ×ₗ (List Char ×ₗ List Char)) :=
  toLex (k.1.data, toLex (k.2.1.data, toLex (k.2.2.1.data, k.2.2.2.data)))

/-- Python's ascending order on the grouping tuples. -/
def keyLe (a b : Key) : Prop := toLexKey a ≤ toLexKey b

instance : DecidableRel keyLe :=
  fun a b => inferInstanceAs (Decidable (toLexKey a ≤ toLexKey b))

instance : IsTotal Key keyLe := ⟨fun a b => le_total (toLexKey a) (toLexKey b)⟩

instance : IsTrans Key keyLe := ⟨fun _ _ _ hab hbc => le_trans hab hbc⟩

/-- The group keys produced by `df.groupby([...])` at line 79: the distinct
key tuples of the input, in ascending order (pandas sorts group keys). -/
def sortedKeys (rows : List Row) : List Key :=
  List.insertionSort keyLe (rows.map groupKey).dedup

/-- The rows of one group: input rows with that key, in input order. -/
def rowsOf (rows : List Row) (k : Key) : List Row :=
  rows.filter (fun r => decide (groupKey r = k))

/-- The `source_key` string of line 84:
`f"source_{file_name}_{decimal_separator}_{file_type}"`. -/
def source_key (k : Key) : String :=
  "source_" ++ k.1 ++ "_" ++ k.2.1 ++ "_" ++ k.2.2.1

/-- The `source_data` dictionary built at lines 88–96 for a group key. -/
def mk_source (k : Key) : Source :=
  { load_type := "delta"
    file_pattern := k.1
    partition_pattern := "(\\d+(?:\\.\\d+)?)_(?:\\d+\\D+)$"
    params := { decimal_separator := k.2.1, format := strLower k.2.2.1 } }

/-- The loop of `process_source` (lines 82–101), restricted to its effect on
the `sources` cache: walks the group keys in order, and pairs each key with
the descriptor found in the cache under its `source_key` string, inserting a
freshly built descriptor when the string key is absent. -/
def sourceAssign (cache : List (String × Source)) : List Key → List (Key × Source)
  | [] => []
  | k :: rest =>
    match cache.lookup (source_key k) with
    | some s => (k, s) :: sourceAssign cache rest
    | none => (k, mk_source k) :: sourceAssign ((source_key k, mk_source k) :: cache) rest

/-- `process_source` (lines 65–103): one table per group, in group-key order,
each built from the group's rows and the cached source descriptor. -/
def process_source (rows : List Row) : List Table :=
  (sourceAssign [] (sortedKeys rows)).map
    (fun ks => process_table (rowsOf rows ks.1) ks.2)

/-- The metadata document (lines 117–122). -/
structure Metadata where
  version : Int
  name : String
  tables : List Table
deriving DecidableEq, Repr

/-- `generate_metadata_yaml` (lines 105–125), up to YAML serialization. -/
def generate_metadata (rows : List Row) : Metadata :=
  { version := 2, name := "dwh", tables := process_source rows }

/-- The `personal_data` sub-dictionary of a GDPR entry. -/
structure PersonalData where
  hash : List String
deriving DecidableEq, Repr

/-- One entry of the GDPR document (lines 138–143). -/
structure GdprEntry where
  name : String
  personal_data : PersonalData
deriving DecidableEq, Repr

/-- Python's ascending (code-point lexicographic) order on table names. -/
def nameLe (a b : String) : Prop := a.data ≤ b.data

instance : DecidableRel nameLe :=
  fun a b => inferInstanceAs (Decidable (a.data ≤ b.data))

instance : IsTotal String nameLe := ⟨fun a b => le_total a.data b.data⟩

instance : IsTrans String nameLe := ⟨fun _ _ _ hab hbc => le_trans hab hbc⟩

/-- The distinct table names in ascending order:
`df.groupby('table_name')` at line 144. -/
def sortedNames (rows : List Row) : List String :=
  List.insertionSort nameLe (rows.map (·.table_name)).dedup

/-- The GDPR-flagged rows of one table's group, in input order:
`df[df['GDPR_FLAG']]` of the group at lines 141 and 145. -/
def flaggedRows (rows : List Row) (tn : String) : List Row :=
  (rows.filter (fun r => decide (r.table_name = tn))).filter (·.GDPR_FLAG)

/-- `generate_gdpr_yaml` (lines 127–149), up to YAML serialization: one entry
per table name whose group has at least one flagged row. -/
def generate_gdpr (rows : List Row) : List GdprEntry :=
  (sortedNames rows).filterMap (fun tn =>
    if (flaggedRows rows tn).isEmpty then none
    else some { name := tn
                personal_data := { hash := (flaggedRows rows tn).map (fun r => strLower r.COLUMN_NAME) } })

/-! ### Concrete inputs used to instantiate the theorems -/

/-- A single generic input row. -/
def wrow : Row :=
  { table_name := "t", COLUMN_NAME := "C", DATA_TYPE := "NUMBER",
    DATA_FORMAT := some "YYYYMMDD", NULLABLE := some "Y", FILE_NAME := "f",
    DECIMAL_SEPARATOR := ",", FILE_TYPE := "CSV", GDPR_FLAG := true }

/-- One table name split over two source files. -/
def c1rowA : Row :=
  { table_name := "T", COLUMN_NAME := "C1", DATA_TYPE := "DATE",
    DATA_FORMAT := none, NULLABLE := none, FILE_NAME := "f1",
    DECIMAL_SEPARATOR := ",", FILE_TYPE := "CSV", GDPR_FLAG := false }

/-- See `c1rowA`: same table name, different file name. -/
def c1rowB : Row :=
  { table_name := "T", COLUMN_NAME := "C2", DATA_TYPE := "DATE",
    DATA_FORMAT := none, NULLABLE := none, FILE_NAME := "f2",
    DECIMAL_SEPARATOR := ",", FILE_TYPE := "CSV", GDPR_FLAG := false }

/-- Table "B" appearing before table "A" in the input; both share one
source-file triple. Its only column is GDPR-flagged. -/
def c8rowB : Row :=
  { table_name := "B", COLUMN_NAME := "C1", DATA_TYPE := "VARCHAR2(50)",
    DATA_FORMAT := none, NULLABLE := some "Y", FILE_NAME := "f",
    DECIMAL_SEPARATOR := ",", FILE_TYPE := "CSV", GDPR_FLAG := true }

/-- See `c8rowB`: table "A", same source-file triple, not flagged. -/
def c8rowA : Row :=
  { table_name := "A", COLUMN_NAME := "C2", DATA_TYPE := "NUMBER(10)",
    DATA_FORMAT := some "YYYYMMDD", NULLABLE := some "N", FILE_NAME := "f",
    DECIMAL_SEPARATOR := ",", FILE_TYPE := "CSV", GDPR_FLAG := false }

/-- First half of a `source_key` collision:
`("a", "b_c", "x")` and `("a_b", "c", "x")` concatenate to the same string. -/
def c9row1 : Row :=
  { table_name := "T1", COLUMN_NAME := "C1", DATA_TYPE := "DATE",
    DATA_FORMAT := none, NULLABLE := none, FILE_NAME := "a",
    DECIMAL_SEPARATOR := "b_c", FILE_TYPE := "x", GDPR_FLAG := false }

/-- Second half of the `source_key` collision, see `c9row1`. -/
def c9row2 : Row :=
  { table_name := "T2", COLUMN_NAME := "C2", DATA_TYPE := "DATE",
    DATA_FORMAT := none, NULLABLE := none, FILE_NAME := "a_b",
    DECIMAL_SEPARATOR := "c", FILE_TYPE := "x", GDPR_FLAG := false }

/-- The GDPR entry produced for table "B" of `[c8rowB, c8rowA]`. -/
def wentry : GdprEntry :=
  { name := "B", personal_data := { hash := ["c1"] } }

/-- The table definition produced for the single-row input `[wrow]`. -/
def wtable : Table :=
  process_table (rowsOf [wrow] ("f", ",", "CSV", "t")) (mk_source ("f", ",", "CSV", "t"))

/-! ### Characterization of the source-descriptor cache walk -/

/-- The descriptor the cache walk pairs with key `k`: the cached value under
its `source_key` string when present, otherwise the descriptor built from the
first key of the walk whose `source_key` string coincides with `k`'s. -/
def resolve (cache : List (String × Source)) (keys : List Key) (k : Key) : Source :=
  match cache.lookup (source_key k) with
  | some s => s
  | none =>
    match keys.find? (fun k0 => source_key k0 == source_key k) with
    | some k0 => mk_source k0
    | none => mk_source k

theorem resolve_cons_hit (cache : List (String × Source)) (rest : List Key) (k k' : Key)
    (s : Source) (h : cache.lookup (source_key k) = some s) :
    resolve cache rest k' = resolve cache (k :: rest) k' := by
  unfold resolve
  cases h' : cache.lookup (source_key k') with
  | some s' => rfl
  | none =>
    have hpk : (source_key k == source_key k') = false := by
      cases hb : source_key k == source_key k' with
      | false => rfl
      | true =>
        have heq := eq_of_beq hb
        rw [heq] at h
        rw [h] at h'
        simp at h'
    simp [List.find?, hpk]

theorem resolve_cons_miss (cache : List (String × Source)) (rest : List Key) (k k' : Key)
    (h : cache.lookup (source_key k) = none) :
    resolve ((source_key k, mk_source k) :: cache) rest k'
      = resolve cache (k :: rest) k' := by
  unfold resolve
  cases hb : source_key k' == source_key k with
  | true =>
    have heq := eq_of_beq hb
    have h1 : List.lookup (source_key k') ((source_key k, mk_source k) :: cache)
        = some (mk_source k) := by simp [List.lookup, hb]
    have h2 : cache.lookup (source_key k') = none := by rw [heq]; exact h
    rw [h1, h2]
    simp [List.find?, heq]
  | false =>
    have h1 : List.lookup (source_key k') ((source_key k, mk_source k) :: cache)
        = cache.lookup (source_key k') := by simp [List.lookup, hb]
    rw [h1]
    cases h' : cache.lookup (source_key k') with
    | some s' => rfl
    | none =>
      have hpk : (source_key k == source_key k') = false := by
        cases hc : source_key k == source_key k' with
        | false => rfl
        | true =>
          rw [eq_of_beq hc] at hb
          simp at hb
      simp [List.find?, hpk]

/-- The stateful cache walk of `process_source` is the pointwise `resolve`. -/
theorem sourceAssign_eq_map (keys : List Key) : ∀ (cache : List (String × Source)),
    sourceAssign cache keys = keys.map (fun k => (k, resolve cache keys k)) := by
  induction keys with
  | nil => intro _; rfl
  | cons k rest ih =>
    intro cache
    cases h : cache.lookup (source_key k) with
    | some s =>
      have hhead : resolve cache (k :: rest) k = s := by unfold resolve; rw [h]
      calc sourceAssign cache (k :: rest)
          = (k, s) :: sourceAssign cache rest := by simp [sourceAssign, h]
        _ = (k, s) :: rest.map (fun k' => (k', resolve cache rest k')) := by rw [ih]
        _ = (k, s) :: rest.map (fun k' => (k', resolve cache (k :: rest) k')) :=
            congrArg _ (List.map_congr_left
              (fun k' _ => by rw [resolve_cons_hit cache rest k k' s h]))
        _ = (k :: rest).map (fun k' => (k', resolve cache (k :: rest) k')) := by
            rw [List.map_cons, hhead]
    | none =>
      have hhead : resolve cache (k :: rest) k = mk_source k := by
        unfold resolve
        rw [h]
        simp [List.find?]
      calc sourceAssign cache (k :: rest)
          = (k, mk_source k) :: sourceAssign ((source_key k, mk_source k) :: cache) rest := by
            simp [sourceAssign, h]
        _ = (k, mk_source k)
            :: rest.map (fun k' => (k', resolve ((source_key k, mk_source k) :: cache) rest k')) := by
            rw [ih]
        _ = (k, mk_source k) :: rest.map (fun k' => (k', resolve cache (k :: rest) k')) :=
            congrArg _ (List.map_congr_left
              (fun k' _ => by rw [resolve_cons_miss cache rest k k' h]))
        _ = (k :: rest).map (fun k' => (k', resolve cache (k :: rest) k')) := by
            rw [List.map_cons, hhead]

/-- `process_source`, stated without the threaded cache: one table per sorted
group key, built from the group's rows and the resolved descriptor. -/
theorem process_source_eq (rows : List Row) :
    process_source rows
      = (sortedKeys rows).map
          (fun k => process_table (rowsOf rows k) (resolve [] (sortedKeys rows) k)) := by
  unfold process_source
  rw [sourceAssign_eq_map]
  rw [List.map_map]
  rfl

theorem mem_sortedKeys {rows : List Row} {k : Key} :
    k ∈ sortedKeys rows ↔ ∃ r ∈ rows, groupKey r = k := by
  unfold sortedKeys
  rw [List.mem_insertionSort, List.mem_dedup, List.mem_map]

theorem mem_rowsOf {rows : List Row} {k : Key} {r : Row} :
    r ∈ rowsOf rows k ↔ r ∈ rows ∧ groupKey r = k := by
  unfold rowsOf
  simp [List.mem_filter]

theorem nodup_sortedKeys (rows : List Row) : (sortedKeys rows).Nodup :=
  ((List.perm_insertionSort keyLe _).nodup_iff).mpr (List.nodup_dedup _)

theorem sorted_sortedKeys (rows : List Row) : List.Sorted keyLe (sortedKeys rows) :=
  List.sorted_insertionSort keyLe _

/-! ### Substring search -/

theorem startsWithL_iff : ∀ (n h : List Char), startsWithL n h = true ↔ ∃ t, h = n ++ t
  | [], h => by simp [startsWithL]
  | a :: n, [] => by simp [startsWithL]
  | a :: n, b :: h => by
    simp only [startsWithL, Bool.and_eq_true, beq_iff_eq]
    constructor
    · rintro ⟨rfl, hs⟩
      obtain ⟨t, rfl⟩ := (startsWithL_iff n h).mp hs
      exact ⟨t, rfl⟩
    · rintro ⟨t, ht⟩
      injection ht with h1 h2
      subst h1
      exact ⟨rfl, (startsWithL_iff n h).mpr ⟨t, h2⟩⟩

theorem containsL_iff : ∀ (h n : List Char), containsL n h = true ↔ ∃ l1 l2, h = l1 ++ (n ++ l2)
  | [], n => by
    simp only [containsL, List.isEmpty_iff]
    constructor
    · rintro rfl
      exact ⟨[], [], rfl⟩
    · rintro ⟨l1, l2, hl⟩
      cases l1 with
      | cons x xs => simp at hl
      | nil =>
        simp only [List.nil_append] at hl
        have := (List.append_eq_nil).mp hl.symm
        exact this.1
  | c :: h, n => by
    simp only [containsL, Bool.or_eq_true]
    constructor
    · rintro (hs | hc)
      · obtain ⟨t, ht⟩ := (startsWithL_iff n (c :: h)).mp hs
        exact ⟨[], t, by simpa using ht⟩
      · obtain ⟨l1, l2, rfl⟩ := (containsL_iff h n).mp hc
        exact ⟨c :: l1, l2, rfl⟩
    · rintro ⟨l1, l2, hl⟩
      cases l1 with
      | nil =>
        left
        exact (startsWithL_iff n (c :: h)).mpr ⟨l2, by simpa using hl⟩
      | cons x l1 =>
        right
        injection hl with h1 h2
        exact (containsL_iff h n).mpr ⟨l1, l2, h2⟩

/-- `strContains` is Python's substring containment. -/
theorem strContains_iff (hay needle : String) :
    strContains hay needle = true ↔ ∃ p s : String, hay = p ++ needle ++ s := by
  unfold strContains
  rw [containsL_iff]
  constructor
  · rintro ⟨l1, l2, hl⟩
    refine ⟨⟨l1⟩, ⟨l2⟩, ?_⟩
    cases hay with
    | mk d =>
      cases needle with
      | mk nd =>
        simp only at hl
        subst hl
        show String.mk (l1 ++ (nd ++ l2)) = (String.mk l1 ++ String.mk nd) ++ String.mk l2
        have : (String.mk l1 ++ String.mk nd ++ String.mk l2).data = l1 ++ (nd ++ l2) := by
          simp [String.data_append]
        cases hx : String.mk l1 ++ String.mk nd ++ String.mk l2 with
        | mk dx =>
          rw [hx] at this
          exact congrArg String.mk this.symm
  · rintro ⟨p, s, rfl⟩
    exact ⟨p.data, s.data, by simp [String.data_append]⟩

/-! ### GDPR helpers -/

theorem mem_sortedNames {rows : List Row} {tn : String} :
    tn ∈ sortedNames rows ↔ ∃ r ∈ rows, r.table_name = tn := by
  unfold sortedNames
  rw [List.mem_insertionSort, List.mem_dedup, List.mem_map]

theorem mem_flaggedRows {rows : List Row} {tn : String} {r : Row} :
    r ∈ flaggedRows rows tn ↔ r ∈ rows ∧ r.table_name = tn ∧ r.GDPR_FLAG = true := by
  simp only [flaggedRows, List.mem_filter, decide_eq_true_eq, and_assoc]

theorem mem_generate_gdpr {rows : List Row} {e : GdprEntry} :
    e ∈ generate_gdpr rows
      ↔ ∃ tn ∈ sortedNames rows,
          flaggedRows rows tn ≠ []
          ∧ e = { name := tn,
                  personal_data :=
                    { hash := (flaggedRows rows tn).map (fun r => strLower r.COLUMN_NAME) } } := by
  unfold generate_gdpr
  rw [List.mem_filterMap]
  constructor
  · rintro ⟨tn, htn, hf⟩
    by_cases hE : (flaggedRows rows tn).isEmpty = true
    · rw [if_pos hE] at hf
      cases hf
    · rw [if_neg hE] at hf
      injection hf with hf
      exact ⟨tn, htn, by simpa [List.isEmpty_iff] using hE, hf.symm⟩
  · rintro ⟨tn, htn, hne, rfl⟩
    refine ⟨tn, htn, ?_⟩
    rw [if_neg (by simpa [List.isEmpty_iff] using hne)]

/-! ### Table helpers -/

theorem lookup_name_mk_column (r : Row) :
    List.lookup "name" (mk_column r) = some (CVal.str (strLower r.COLUMN_NAME)) := rfl

theorem name_process_table (rows : List Row) (k : Key) (s : Source) (r : Row)
    (hr : r ∈ rowsOf rows k) :
    (process_table (rowsOf rows k) s).name = k.2.2.2 := by
  cases hg : rowsOf rows k with
  | nil =>
    rw [hg] at hr
    cases hr
  | cons r0 rest =>
    have h0 : r0 ∈ rowsOf rows k := hg ▸ List.mem_cons_self r0 rest
    have hk := (mem_rowsOf.mp h0).2
    show r0.table_name = k.2.2.2
    rw [← hk]
    rfl

theorem resolve_nil (keys : List Key) (k : Key) :
    resolve [] keys k
      = match keys.find? (fun k0 => source_key k0 == source_key k) with
        | some k0 => mk_source k0
        | none => mk_source k := rfl

/-! ### The claims -/

/-- C2: `map_data_type` scans the ordered mapping VARCHAR2 → "string",
NUMBER → "decimal(38,0)", DATE → "date" in declaration order and returns the
canonical name of the first key occurring as a substring of the input,
defaulting to "string" when none of the three keys occurs; `strContains` is
exactly substring occurrence. -/
theorem C2_map_data_type_scan :
    (∀ dt : String,
        map_data_type dt =
          if strContains dt "VARCHAR2" then "string"
          else if strContains dt "NUMBER" then "decimal(38,0)"
          else if strContains dt "DATE" then "date"
          else "string")
    ∧ (∀ hay needle : String,
        strContains hay needle = true ↔ ∃ p s : String, hay = p ++ needle ++ s) := by
  refine ⟨fun dt => ?_, fun hay needle => strContains_iff hay needle⟩
  simp only [map_data_type, type_mapping, firstMatch]
  by_cases h1 : strContains dt "VARCHAR2" = true <;>
    by_cases h2 : strContains dt "NUMBER" = true <;>
      by_cases h3 : strContains dt "DATE" = true <;>
        simp [h1, h2, h3]

/-- C3: the column dictionary holds a `date_format` key, with the row's
`DATA_FORMAT` value, exactly when `DATA_FORMAT` is non-missing. -/
theorem C3_date_format_key (r : Row) :
    List.lookup "date_format" (mk_column r) = r.DATA_FORMAT.map CVal.str
    ∧ ((mk_column r).map Prod.fst).contains "date_format" = !r.DATA_FORMAT.isNone := by
  obtain ⟨tn, cn, dt, df, nu, fn, ds, ft, gf⟩ := r
  by_cases hn : nu = some "Y" <;> cases df <;>
    simp [mk_column, hn, List.lookup]

/-- C4: the column dictionary holds `is_nullable: true` exactly when the
row's `NULLABLE` value equals "Y"; for any other value, including "N" or a
missing value, the key is absent. -/
theorem C4_is_nullable_key (r : Row) :
    List.lookup "is_nullable" (mk_column r)
        = (if r.NULLABLE = some "Y" then some (CVal.bool true) else none)
    ∧ ((mk_column r).map Prod.fst).contains "is_nullable"
        = decide (r.NULLABLE = some "Y") := by
  obtain ⟨tn, cn, dt, df, nu, fn, ds, ft, gf⟩ := r
  by_cases hn : nu = some "Y" <;> cases df <;>
    simp [mk_column, hn, List.lookup]

/-- C1 (counterexample): two rows sharing one table name but split over two
file names produce two table definitions, refuting "the `tables` list has
length equal to the number of distinct `table_name` values". -/
theorem C1_counterexample :
    (generate_metadata [c1rowA, c1rowB]).tables.length = 2
    ∧ ([c1rowA, c1rowB].map Row.table_name).dedup.length = 1
    ∧ (generate_metadata [c1rowA, c1rowB]).tables.length
        ≠ ([c1rowA, c1rowB].map Row.table_name).dedup.length := by decide

/-- C1 (amended): the `tables` list has exactly one table definition per
distinct grouping key (FILE_NAME, DECIMAL_SEPARATOR, FILE_TYPE, table_name)
of the input rows. -/
theorem C1_tables_length (rows : List Row) :
    (generate_metadata rows).tables.length = ((rows.map groupKey).dedup).length := by
  show (process_source rows).length = _
  rw [process_source_eq, List.length_map]
  unfold sortedKeys
  rw [List.length_insertionSort]

/-- C8: the tables list is the map over the grouping keys in ascending
sorted key order — with each group's columns built from the group's rows,
which are an order-preserving selection (sublist) of the input rows — and
not in first-appearance order: on `[c8rowB, c8rowA]` the output table order
is A, B while the first-appearance order is B, A. -/
theorem C8_table_order :
    (∀ rows : List Row,
        process_source rows
          = (sortedKeys rows).map
              (fun k => process_table (rowsOf rows k) (resolve [] (sortedKeys rows) k))
        ∧ List.Sorted keyLe (sortedKeys rows)
        ∧ ∀ k : Key, (rowsOf rows k).Sublist rows)
    ∧ (process_source [c8rowB, c8rowA]).map Table.name = ["A", "B"]
    ∧ ([c8rowB, c8rowA].map Row.table_name).dedup = ["B", "A"] := by
  refine ⟨fun rows => ⟨process_source_eq rows, sorted_sortedKeys rows,
    fun k => List.filter_sublist rows⟩, by decide, by decide⟩

/-- C7: the metadata document has version 2, name "dwh" and the tables list,
and every table definition carries primary_key ["unid"], cdc_column
"dml_flag" and cdc_type "soft". -/
theorem C7_fixed_fields (rows : List Row) :
    (generate_metadata rows).version = 2
    ∧ (generate_metadata rows).name = "dwh"
    ∧ (generate_metadata rows).tables = process_source rows
    ∧ ∀ t ∈ (generate_metadata rows).tables,
        t.primary_key = ["unid"] ∧ t.cdc_column = "dml_flag" ∧ t.cdc_type = "soft" := by
  refine ⟨rfl, rfl, rfl, fun t ht => ?_⟩
  rw [show (generate_metadata rows).tables = process_source rows from rfl,
    process_source_eq] at ht
  obtain ⟨k, -, rfl⟩ := List.mem_map.mp ht
  exact ⟨rfl, rfl, rfl⟩

theorem C7_witness :
    wtable.primary_key = ["unid"] ∧ wtable.cdc_column = "dml_flag"
    ∧ wtable.cdc_type = "soft" :=
  (C7_fixed_fields [wrow]).2.2.2 wtable (by decide)

/-- C6: two table definitions whose grouping keys agree on the
(FILE_NAME, DECIMAL_SEPARATOR, FILE_TYPE) triple embed equal source
descriptors. -/
theorem C6_shared_source (rows : List Row) (i j : Nat)
    (hi : i < (sortedKeys rows).length) (hj : j < (sortedKeys rows).length)
    (h1 : ((sortedKeys rows).get ⟨i, hi⟩).1 = ((sortedKeys rows).get ⟨j, hj⟩).1)
    (h2 : ((sortedKeys rows).get ⟨i, hi⟩).2.1 = ((sortedKeys rows).get ⟨j, hj⟩).2.1)
    (h3 : ((sortedKeys rows).get ⟨i, hi⟩).2.2.1 = ((sortedKeys rows).get ⟨j, hj⟩).2.2.1) :
    ((process_source rows).map Table.source).get? i
      = ((process_source rows).map Table.source).get? j := by
  have hmap : (process_source rows).map Table.source
      = (sortedKeys rows).map (fun k => resolve [] (sortedKeys rows) k) := by
    rw [process_source_eq, List.map_map]
    rfl
  have hsk : source_key ((sortedKeys rows).get ⟨i, hi⟩)
      = source_key ((sortedKeys rows).get ⟨j, hj⟩) := by
    unfold source_key
    rw [h1, h2, h3]
  have hms : mk_source ((sortedKeys rows).get ⟨i, hi⟩)
      = mk_source ((sortedKeys rows).get ⟨j, hj⟩) := by
    unfold mk_source
    rw [h1, h2, h3]
  have hres : resolve [] (sortedKeys rows) ((sortedKeys rows).get ⟨i, hi⟩)
      = resolve [] (sortedKeys rows) ((sortedKeys rows).get ⟨j, hj⟩) := by
    rw [resolve_nil, resolve_nil, hsk]
    cases (sortedKeys rows).find?
        (fun k0 => source_key k0 == source_key ((sortedKeys rows).get ⟨j, hj⟩)) with
    | some k0 => rfl
    | none => exact hms
  rw [hmap, List.get?_map, List.get?_map, List.get?_eq_get hi, List.get?_eq_get hj]
  simpa using congrArg some hres

theorem C6_witness :
    ((process_source [c8rowB, c8rowA]).map Table.source).get? 0
      = ((process_source [c8rowB, c8rowA]).map Table.source).get? 1 :=
  C6_shared_source [c8rowB, c8rowA] 0 1 (by decide) (by decide)
    (by decide) (by decide) (by decide)

/-- C9 (counterexample): the triples ("a","b_c","x") and ("a_b","c","x")
collide on the concatenated `source_key` string, so the second sorted group
(FILE_NAME "a_b") embeds the first group's descriptor: its `file_pattern` is
"a", not its own FILE_NAME "a_b". -/
theorem C9_counterexample :
    (sortedKeys [c9row1, c9row2]).get? 1 = some ("a_b", "c", "x", "T2")
    ∧ ((process_source [c9row1, c9row2]).map (fun t => t.source.file_pattern)).get? 1
        = some "a"
    ∧ ("a" : String) ≠ "a_b" := by decide

/-- C9 (amended): a table definition whose grouping key's `source_key`
string is shared by no other (FILE_NAME, DECIMAL_SEPARATOR, FILE_TYPE)
triple among the group keys embeds the descriptor of its own triple:
`file_pattern` is its FILE_NAME, `params.decimal_separator` its
DECIMAL_SEPARATOR, and `params.format` its FILE_TYPE lowercased. -/
theorem C9_own_triple (rows : List Row) (i : Nat)
    (hi : i < (sortedKeys rows).length)
    (hnc : ∀ k' ∈ sortedKeys rows,
        source_key k' = source_key ((sortedKeys rows).get ⟨i, hi⟩) →
        k'.1 = ((sortedKeys rows).get ⟨i, hi⟩).1
        ∧ k'.2.1 = ((sortedKeys rows).get ⟨i, hi⟩).2.1
        ∧ k'.2.2.1 = ((sortedKeys rows).get ⟨i, hi⟩).2.2.1) :
    ((process_source rows).map Table.source).get? i
      = some { load_type := "delta"
               file_pattern := ((sortedKeys rows).get ⟨i, hi⟩).1
               partition_pattern := "(\\d+(?:\\.\\d+)?)_(?:\\d+\\D+)$"
               params := { decimal_separator := ((sortedKeys rows).get ⟨i, hi⟩).2.1
                           format := strLower ((sortedKeys rows).get ⟨i, hi⟩).2.2.1 } } := by
  have hmap : (process_source rows).map Table.source
      = (sortedKeys rows).map (fun k => resolve [] (sortedKeys rows) k) := by
    rw [process_source_eq, List.map_map]
    rfl
  have hmem : (sortedKeys rows).get ⟨i, hi⟩ ∈ sortedKeys rows := List.get_mem _ _ _
  have hfind : ((sortedKeys rows).find?
      (fun k0 => source_key k0 == source_key ((sortedKeys rows).get ⟨i, hi⟩))).isSome :=
    List.find?_isSome.mpr ⟨_, hmem, by simp⟩
  obtain ⟨k0, hk0⟩ := Option.isSome_iff_exists.mp hfind
  have hk0mem : k0 ∈ sortedKeys rows := List.mem_of_find?_eq_some hk0
  have hk0eq : source_key k0 = source_key ((sortedKeys rows).get ⟨i, hi⟩) := by
    have := List.find?_some hk0
    simpa using this
  obtain ⟨e1, e2, e3⟩ := hnc k0 hk0mem hk0eq
  have hms : mk_source k0 = mk_source ((sortedKeys rows).get ⟨i, hi⟩) := by
    unfold mk_source
    rw [e1, e2, e3]
  rw [hmap, List.get?_map, List.get?_eq_get hi]
  show some (resolve [] (sortedKeys rows) ((sortedKeys rows).get ⟨i, hi⟩)) = _
  rw [resolve_nil, hk0]
  show some (mk_source k0) = _
  rw [hms]
  rfl

theorem C9_witness :
    ((process_source [wrow]).map Table.source).get? 0
      = some { load_type := "delta", file_pattern := "f"
               partition_pattern := "(\\d+(?:\\.\\d+)?)_(?:\\d+\\D+)$"
               params := { decimal_separator := ",", format := "csv" } } :=
  (C9_own_triple [wrow] 0 (by decide) (by decide)).trans (by decide)

/-- C5: the GDPR document has an entry named after a table exactly when some
input row of that table is GDPR-flagged, and such an entry lists, under
`hash`, the lowercased COLUMN_NAME values of exactly the flagged rows of
that table, in input row order; tables with zero flagged rows are absent. -/
theorem C5_gdpr_entries (rows : List Row) (tn : String) :
    ((∃ e ∈ generate_gdpr rows, e.name = tn)
      ↔ ∃ r ∈ rows, r.table_name = tn ∧ r.GDPR_FLAG = true)
    ∧ ∀ e ∈ generate_gdpr rows, e.name = tn →
        e.personal_data.hash
          = (flaggedRows rows tn).map (fun r => strLower r.COLUMN_NAME) := by
  constructor
  · constructor
    · rintro ⟨e, he, hename⟩
      obtain ⟨tn', htn', hne, rfl⟩ := mem_generate_gdpr.mp he
      have htt : tn' = tn := hename
      subst htt
      obtain ⟨r, hr⟩ := List.exists_mem_of_ne_nil _ hne
      obtain ⟨hrrows, hrtn, hrflag⟩ := mem_flaggedRows.mp hr
      exact ⟨r, hrrows, hrtn, hrflag⟩
    · rintro ⟨r, hr, htn, hf⟩
      have hmemname : tn ∈ sortedNames rows := mem_sortedNames.mpr ⟨r, hr, htn⟩
      have hne : flaggedRows rows tn ≠ [] :=
        List.ne_nil_of_mem (mem_flaggedRows.mpr ⟨hr, htn, hf⟩)
      exact ⟨_, mem_generate_gdpr.mpr ⟨tn, hmemname, hne, rfl⟩, rfl⟩
  · intro e he hename
    obtain ⟨tn', htn', hne, rfl⟩ := mem_generate_gdpr.mp he
    have htt : tn' = tn := hename
    subst htt
    rfl

theorem C5_witness :
    wentry.personal_data.hash
      = (flaggedRows [c8rowB, c8rowA] "B").map (fun r => strLower r.COLUMN_NAME) :=
  (C5_gdpr_entries [c8rowB, c8rowA] "B").2 wentry (by decide) (by decide)

/-- C10: every GDPR entry names a table that occurs as a table definition
name in the metadata document from the same input, and every column name
under its `hash` key occurs as the `name` value of a column dictionary of a
table definition with that name. -/
theorem C10_gdpr_consistent (rows : List Row) (e : GdprEntry)
    (he : e ∈ generate_gdpr rows) :
    (∃ t ∈ (generate_metadata rows).tables, t.name = e.name)
    ∧ ∀ c ∈ e.personal_data.hash,
        ∃ t ∈ (generate_metadata rows).tables,
          t.name = e.name ∧ some (CVal.str c) ∈ t.columns.map (List.lookup "name") := by
  obtain ⟨tn, htn, hne, rfl⟩ := mem_generate_gdpr.mp he
  constructor
  · obtain ⟨r, hr⟩ := List.exists_mem_of_ne_nil _ hne
    obtain ⟨hrrows, hrtn, hrflag⟩ := mem_flaggedRows.mp hr
    refine ⟨process_table (rowsOf rows (groupKey r))
        (resolve [] (sortedKeys rows) (groupKey r)), ?_, ?_⟩
    · show _ ∈ process_source rows
      rw [process_source_eq]
      exact List.mem_map_of_mem _ (mem_sortedKeys.mpr ⟨r, hrrows, rfl⟩)
    · have hmem : r ∈ rowsOf rows (groupKey r) := mem_rowsOf.mpr ⟨hrrows, rfl⟩
      rw [name_process_table rows (groupKey r) _ r hmem]
      exact hrtn
  · intro c hc
    obtain ⟨r, hr, rfl⟩ := List.mem_map.mp hc
    obtain ⟨hrrows, hrtn, hrflag⟩ := mem_flaggedRows.mp hr
    have hmem : r ∈ rowsOf rows (groupKey r) := mem_rowsOf.mpr ⟨hrrows, rfl⟩
    refine ⟨process_table (rowsOf rows (groupKey r))
        (resolve [] (sortedKeys rows) (groupKey r)), ?_, ?_, ?_⟩
    · show _ ∈ process_source rows
      rw [process_source_eq]
      exact List.mem_map_of_mem _ (mem_sortedKeys.mpr ⟨r, hrrows, rfl⟩)
    · rw [name_process_table rows (groupKey r) _ r hmem]
      exact hrtn
    · refine List.mem_map.mpr ⟨mk_column r, List.mem_map_of_mem mk_column hmem, ?_⟩
      rw [lookup_name_mk_column]

theorem C10_witness :
    (∃ t ∈ (generate_metadata [c8rowB, c8rowA]).tables, t.name = wentry.name)
    ∧ ∀ c ∈ wentry.personal_data.hash,
        ∃ t ∈ (generate_metadata [c8rowB, c8rowA]).tables,
          t.name = wentry.name
          ∧ some (CVal.str c) ∈ t.columns.map (List.lookup "name") :=
  C10_gdpr_consistent [c8rowB, c8rowA] wentry (by decide)

end Converter
